import Mathlib

/-!
Verification development for the http-snapshotter record/replay engine.

The definitions below are a shallow embedding of the snapshotter source
(the CommonJS module exporting `start`, `saveSnapshot`, `readSnapshot`,
`defaultSnapshotFileNameGenerator`, `getSnapshotFileInfo`,
`findClosestSnapshotFile` and `sendResponse`).  Pure JavaScript functions
become Lean functions; the module-level mutable maps (`alreadyWrittenFiles`,
`snapshotCache`, `readFiles`) together with the snapshot directory contents
become an explicit `ProcState` threaded through the event handlers; code
that can throw returns `Except` or `Option`.

External collaborators that the source imports from npm or the Node.js
runtime (URL parsing, JSON.parse/stringify, the slug helper, SHA-256,
base64url, the character diff) are modelled here as executable Lean
functions faithful to their documented behaviour on the inputs the
snapshotter feeds them; each such definition carries a comment saying what
it models.
-/

set_option autoImplicit false

namespace Snapshotter

/-! ## Generic small helpers -/

/-- Lowercasing, character by character (`String.prototype.toLowerCase`
on the ASCII data the snapshotter handles). -/
def lowerStr (s : String) : String :=
  String.mk (s.data.map Char.toLower)

/-- `String.prototype.startsWith`. -/
def startsWithStr (s pat : String) : Bool :=
  pat.data.isPrefixOf s.data

/-- Fuel-driven worker for `strSplitOn` (fuel bounds the number of
consumed characters, so `s.length + 1` is always enough). -/
def splitOnGo (sep : List Char) : Nat → List Char → List Char → List (List Char)
  | 0, acc, _ => [acc.reverse]
  | fuel + 1, acc, cs =>
    if sep.isPrefixOf cs ∧ ¬sep.isEmpty then
      acc.reverse :: splitOnGo sep fuel [] (cs.drop sep.length)
    else
      match cs with
      | [] => [acc.reverse]
      | c :: rest => splitOnGo sep fuel (c :: acc) rest

/-- `String.prototype.split` with a non-empty plain-string separator,
keeping empty fragments (`"a..b".split "." = ["a", "", "b"]`). -/
def strSplitOn (s sep : String) : List String :=
  (splitOnGo sep.data (s.data.length + 1) [] s.data).map String.mk

/-- First value bound to `key` in an association list (JavaScript `Map.get`). -/
def lookupAssoc {α : Type} (l : List (String × α)) (key : String) : Option α :=
  match l with
  | [] => none
  | (k, v) :: rest => if k = key then some v else lookupAssoc rest key

/-- JavaScript `String.prototype.includes` for a needle: some tail of `s`
starts with `pat`. -/
def strIncludes (s pat : String) : Bool :=
  s.data.tails.any (fun t => pat.data.isPrefixOf t)

/-- Remove the first occurrence of `pat` from `s`
(JavaScript `s.replace(pat, "")` with a plain-string pattern). -/
def removeFirstOcc (cs pat : List Char) : List Char :=
  match cs with
  | [] => []
  | c :: rest =>
    if pat.isPrefixOf (c :: rest) then (c :: rest).drop pat.length
    else c :: removeFirstOcc rest pat

def replaceFirstOccStr (s pat : String) : String :=
  String.mk (removeFirstOcc s.data pat.data)

/-- Last component of `v.split(sep)` (JavaScript `split(...).pop()`). -/
def lastSplitSegment (v sep : String) : String :=
  (strSplitOn v sep).getLastD ""

/-- Basename of a path: the part after the final slash. -/
def basenameOf (p : String) : String :=
  (strSplitOn p "/").getLastD ""

/-! ## JSON values

Models the data produced by the JavaScript `JSON.parse` / `JSON.stringify`
runtime functions, which the snapshotter uses to classify bodies, to pull
`TableName` out of DynamoDB request bodies, and to re-serialize stored JSON
response bodies.  Numbers are modelled as integers (the snapshotter never
computes with the numbers, it only round-trips them). -/

inductive JsonVal where
  | null
  | boolean (b : Bool)
  | num (n : Int)
  | str (s : String)
  | arr (elems : List JsonVal)
  | obj (fields : List (String × JsonVal))

/-- JavaScript property access on a parsed JSON value: last binding of a
duplicated key wins, exactly as in `JSON.parse`. -/
def jsonObjGet (fields : List (String × JsonVal)) (key : String) : Option JsonVal :=
  lookupAssoc fields.reverse key

/-- JSON string quoting with the standard short escapes. -/
def jsonQuoteChar (c : Char) : List Char :=
  if c = '"' then ['\\', '"']
  else if c = '\\' then ['\\', '\\']
  else if c = '\n' then ['\\', 'n']
  else if c = '\r' then ['\\', 'r']
  else if c = '\t' then ['\\', 't']
  else [c]

def jsonQuote (s : String) : String :=
  String.mk ('"' :: (s.data.map jsonQuoteChar).flatten ++ ['"'])

mutual

/-- Compact serialization, modelling `JSON.stringify(v)` (no spaces). -/
def jsonStringify : JsonVal → String
  | .null => "null"
  | .boolean true => "true"
  | .boolean false => "false"
  | .num n => toString n
  | .str s => jsonQuote s
  | .arr elems => "[" ++ jsonStringifyElems elems ++ "]"
  | .obj fields => "\x7b" ++ jsonStringifyFields fields ++ "\x7d"

def jsonStringifyElems : List JsonVal → String
  | [] => ""
  | [v] => jsonStringify v
  | v :: rest => jsonStringify v ++ "," ++ jsonStringifyElems rest

def jsonStringifyFields : List (String × JsonVal) → String
  | [] => ""
  | [(k, v)] => jsonQuote k ++ ":" ++ jsonStringify v
  | (k, v) :: rest => jsonQuote k ++ ":" ++ jsonStringify v ++ "," ++ jsonStringifyFields rest

end

/-! ### JSON parsing

Models `JSON.parse` on the JSON subset without fractional/exponent number
literals and without `\u` string escapes (the snapshotter only relies on
`JSON.parse` succeeding on ordinary object bodies and throwing on an empty
or non-JSON body; parse failure is modelled as `none`). -/

def jsonIsWs (c : Char) : Bool :=
  c = ' ' ∨ c = '\t' ∨ c = '\n' ∨ c = '\r'

def skipWs (cs : List Char) : List Char :=
  cs.dropWhile jsonIsWs

def parseStringBody (cs : List Char) (acc : List Char) : Option (String × List Char) :=
  match cs with
  | [] => none
  | '"' :: rest => some (String.mk acc.reverse, rest)
  | '\\' :: e :: rest =>
    if e = '"' then parseStringBody rest ('"' :: acc)
    else if e = '\\' then parseStringBody rest ('\\' :: acc)
    else if e = '/' then parseStringBody rest ('/' :: acc)
    else if e = 'n' then parseStringBody rest ('\n' :: acc)
    else if e = 'r' then parseStringBody rest ('\r' :: acc)
    else if e = 't' then parseStringBody rest ('\t' :: acc)
    else none
  | c :: rest => parseStringBody rest (c :: acc)

def parseDigits (cs : List Char) : Option (Nat × List Char) :=
  let digits := cs.takeWhile Char.isDigit
  if digits.isEmpty then none
  else some (digits.foldl (fun acc c => acc * 10 + (c.toNat - 48)) 0, cs.dropWhile Char.isDigit)

def parseNumber (cs : List Char) : Option (JsonVal × List Char) :=
  match cs with
  | '-' :: rest =>
    match parseDigits rest with
    | some (n, rest2) => some (.num (-(n : Int)), rest2)
    | none => none
  | _ =>
    match parseDigits cs with
    | some (n, rest2) => some (.num (n : Int), rest2)
    | none => none

mutual

def parseVal (fuel : Nat) (cs : List Char) : Option (JsonVal × List Char) :=
  match fuel with
  | 0 => none
  | fuel + 1 =>
    match skipWs cs with
    | 'n' :: 'u' :: 'l' :: 'l' :: rest => some (.null, rest)
    | 't' :: 'r' :: 'u' :: 'e' :: rest => some (.boolean true, rest)
    | 'f' :: 'a' :: 'l' :: 's' :: 'e' :: rest => some (.boolean false, rest)
    | '"' :: rest =>
      match parseStringBody rest [] with
      | some (s, rest2) => some (.str s, rest2)
      | none => none
    | '[' :: rest =>
      match skipWs rest with
      | ']' :: rest2 => some (.arr [], rest2)
      | _ =>
        match parseElems fuel rest with
        | some (elems, rest2) => some (.arr elems, rest2)
        | none => none
    | '\x7b' :: rest =>
      match skipWs rest with
      | '\x7d' :: rest2 => some (.obj [], rest2)
      | _ =>
        match parseFields fuel rest with
        | some (fields, rest2) => some (.obj fields, rest2)
        | none => none
    | cs2 => parseNumber cs2

def parseElems (fuel : Nat) (cs : List Char) : Option (List JsonVal × List Char) :=
  match fuel with
  | 0 => none
  | fuel + 1 =>
    match parseVal fuel cs with
    | none => none
    | some (v, rest) =>
      match skipWs rest with
      | ',' :: rest2 =>
        match parseElems fuel rest2 with
        | some (vs, rest3) => some (v :: vs, rest3)
        | none => none
      | ']' :: rest2 => some ([v], rest2)
      | _ => none

def parseFields (fuel : Nat) (cs : List Char) : Option (List (String × JsonVal) × List Char) :=
  match fuel with
  | 0 => none
  | fuel + 1 =>
    match skipWs cs with
    | '"' :: rest =>
      match parseStringBody rest [] with
      | none => none
      | some (k, rest2) =>
        match skipWs rest2 with
        | ':' :: rest3 =>
          match parseVal fuel rest3 with
          | none => none
          | some (v, rest4) =>
            match skipWs rest4 with
            | ',' :: rest5 =>
              match parseFields fuel rest5 with
              | some (fs, rest6) => some ((k, v) :: fs, rest6)
              | none => none
            | '\x7d' :: rest5 => some ([(k, v)], rest5)
            | _ => none
        | _ => none
    | _ => none

end

/-- Model of `JSON.parse`: `none` models the `SyntaxError` throw. -/
def jsonParse (s : String) : Option JsonVal :=
  match parseVal (s.length + 1) s.data with
  | some (v, rest) => if (skipWs rest).isEmpty then some v else none
  | none => none

/-! ## Slug helper

Models the external identity-slug helper (the npm package imported as
`slugify`) with its default options on ASCII input: decamelize camelCase
runs with a dash, lowercase everything, turn every run of
non-alphanumeric characters into a single dash, and trim dashes at both
ends.  The snapshotter feeds it hostnames, URL paths, header fragments
such as `GetItem`, and table names. -/

def decamelizeAux (prev : Option Char) (cs : List Char) : List Char :=
  match cs with
  | [] => []
  | c :: rest =>
    let needSep : Bool :=
      match prev with
      | none => false
      | some p =>
        if (p.isLower || p.isDigit) && c.isUpper then true
        else if p.isUpper && c.isUpper &&
            (match rest with | r :: _ => r.isLower | [] => false) then
          true
        else false
    (if needSep then ['-', c] else [c]) ++ decamelizeAux (some c) rest

def dashForNonAlnum (c : Char) : Char :=
  if c.isAlphanum then c else '-'

def collapseDashes (cs : List Char) : List Char :=
  match cs with
  | [] => []
  | '-' :: rest =>
    match collapseDashes rest with
    | '-' :: tail => '-' :: tail
    | tail => '-' :: tail
  | c :: rest => c :: collapseDashes rest

def trimDashes (cs : List Char) : List Char :=
  ((cs.dropWhile (· = '-')).reverse.dropWhile (· = '-')).reverse

def slugModel (s : String) : String :=
  String.mk
    (trimDashes (collapseDashes
      ((decamelizeAux none s.data).map (fun c => dashForNonAlnum c.toLower))))

/-! ## URL parsing

Models `new URL(request.url)` for the absolute `scheme://host[:port]/path`
URLs that a fetch `Request` carries (already normalized by the `Request`
constructor): the hostname is the authority without port, lowercased; the
pathname runs from the first slash after the authority up to a query or
fragment, defaulting to a single slash. -/

structure URLParts where
  hostname : String
  pathname : String
deriving DecidableEq, Repr

def urlParse (s : String) : Option URLParts :=
  match strSplitOn s "://" with
  | [scheme, rest] =>
    if scheme.isEmpty ∨ rest.isEmpty then none
    else
      let authority := rest.data.takeWhile (fun c => ¬(c = '/' ∨ c = '?' ∨ c = '#'))
      let afterAuth := rest.data.drop authority.length
      let host := authority.takeWhile (fun c => ¬(c = ':'))
      let path := afterAuth.takeWhile (fun c => ¬(c = '?' ∨ c = '#'))
      if host.isEmpty then none
      else some
        { hostname := String.mk (host.map Char.toLower)
          pathname := if path.isEmpty then "/" else String.mk path }
  | _ => none

/-! ## The default fingerprint generator -/

/-- A request as delivered by the interceptor collaborator: a fetch
`Request` with an absolute URL, a header list (fetch `Headers` iterate in
normalized lowercase form), and its body text (`request.clone().text()`,
the empty string when the request has no body). -/
structure Request where
  method : String
  url : String
  headers : List (String × String)
  body : String
deriving DecidableEq, Repr

/-- Fetch `Headers.get`: case-insensitive lookup (first matching entry;
the snapshotter only reads single-valued headers). -/
def headersGet (headers : List (String × String)) (name : String) : Option String :=
  (headers.find? (fun t => lowerStr t.1 = lowerStr name)).map (·.2)

/-- The hostname pattern of the multiplexed DynamoDB API:
the regular expression from the source,
matching either a literal first label or a digits label followed by a
`ddb` label, then a capture of the region label, then the fixed apex.
Returns the captured region. -/
def dynamodbMatch (hostname : String) : Option String :=
  match strSplitOn hostname "." with
  | ["dynamodb", region, "amazonaws", "com"] =>
    if region.isEmpty then none else some region
  | [numeric, "ddb", region, "amazonaws", "com"] =>
    if ¬numeric.isEmpty ∧ numeric.data.all Char.isDigit ∧ ¬region.isEmpty then some region
    else none
  | _ => none

/-- The fingerprint of a request (source field names `filePrefix` and
`fileSuffixKey`; the first is renamed here with a `Str` suffix purely for
lexical reasons). -/
structure Fingerprint where
  filePrefixStr : String
  fileSuffixKey : String
deriving DecidableEq, Repr

/-- The `filter(Boolean).join(sep)` idiom from the source. -/
def joinNonEmpty (sep : String) (parts : List String) : String :=
  String.intercalate sep (parts.filter (fun p => ¬p.isEmpty))

/-- The `key of suffix derivation: `[method, url, body].join("#")`. -/
def suffixKeyOf (r : Request) : String :=
  String.intercalate "#" [r.method, r.url, r.body]

/-- Extraction of `JSON.parse(body)?.TableName` followed by handing the
result to the slug helper: any JSON parse failure (`SyntaxError`), as well
as a result that is not an object carrying a string `TableName` (the slug
helper throws a `TypeError` on a non-string argument), is an error. -/
def dynamoTableName (body : String) : Except String String :=
  match jsonParse body with
  | none => .error "SyntaxError: Unexpected token in JSON"
  | some v =>
    match v with
    | .obj fields =>
      match jsonObjGet fields "TableName" with
      | some (.str s) => .ok s
      | _ => .error "TypeError: Expected a string, got undefined"
    | _ => .error "TypeError: Expected a string, got undefined"

/-- `defaultSnapshotFileNameGenerator` from the source.  An `Except`
result models an async function whose promise can reject (invalid URL,
`JSON.parse` failure or a slug `TypeError` in the DynamoDB branch). -/
def defaultSnapshotFileNameGenerator (request : Request) : Except String Fingerprint :=
  match urlParse request.url with
  | none => .error "TypeError: Invalid URL"
  | some url =>
    match dynamodbMatch url.hostname with
    | some region =>
      match dynamoTableName request.body with
      | .error e => .error e
      | .ok tableName =>
        let opHeader := (headersGet request.headers "x-amz-target").getD ""
        let opSegment := if opHeader.isEmpty then "" else lastSplitSegment opHeader "."
        .ok
          { filePrefixStr :=
              joinNonEmpty "-" ["dynamodb", region, slugModel opSegment, slugModel tableName]
            fileSuffixKey := suffixKeyOf request }
    | none =>
      .ok
        { filePrefixStr :=
            joinNonEmpty "-"
              [lowerStr request.method, slugModel url.hostname,
               slugModel (replaceFirstOccStr url.pathname ".json")]
          fileSuffixKey := suffixKeyOf request }

/-! ## Digest encoder

Models the Node.js `createHash("sha256").update(key).digest("base64url")`
pipeline over the UTF-8 bytes of the suffix key: a full executable SHA-256,
base64url encoding without padding, and the 15-character truncation from
`getSnapshotFileInfo`.  Machine words are naturals reduced modulo `2 ^ 32`.
-/

def utf8EncodeChar (c : Char) : List Nat :=
  let n := c.toNat
  if n < 128 then [n]
  else if n < 2048 then [192 ||| (n >>> 6), 128 ||| (n &&& 63)]
  else if n < 65536 then
    [224 ||| (n >>> 12), 128 ||| ((n >>> 6) &&& 63), 128 ||| (n &&& 63)]
  else
    [240 ||| (n >>> 18), 128 ||| ((n >>> 12) &&& 63), 128 ||| ((n >>> 6) &&& 63),
     128 ||| (n &&& 63)]

def utf8Encode (s : String) : List Nat :=
  (s.data.map utf8EncodeChar).flatten

def w32 (n : Nat) : Nat := n % 4294967296

def rotr32 (n x : Nat) : Nat :=
  w32 ((x >>> n) ||| (x <<< (32 - n)))

/-- Big-endian byte serialization of `x` into exactly `n` bytes. -/
def toBytesBE (n x : Nat) : List Nat :=
  match n with
  | 0 => []
  | m + 1 => toBytesBE m (x / 256) ++ [x % 256]

def sha256K : List Nat :=
  [1116352408, 1899447441, 3049323471, 3921009573, 961987163, 1508970993,
   2453635748, 2870763221, 3624381080, 310598401, 607225278, 1426881987,
   1925078388, 2162078206, 2614888103, 3248222580, 3835390401, 4022224774,
   264347078, 604807628, 770255983, 1249150122, 1555081692, 1996064986,
   2554220882, 2821834349, 2952996808, 3210313671, 3336571891, 3584528711,
   113926993, 338241895, 666307205, 773529912, 1294757372, 1396182291,
   1695183700, 1986661051, 2177026350, 2456956037, 2730485921, 2820302411,
   3259730800, 3345764771, 3516065817, 3600352804, 4094571909, 275423344,
   430227734, 506948616, 659060556, 883997877, 958139571, 1322822218,
   1537002063, 1747873779, 1955562222, 2024104815, 2227730452, 2361852424,
   2428436474, 2756734187, 3204031479, 3329325298]

structure Sha256State where
  a : Nat
  b : Nat
  c : Nat
  d : Nat
  e : Nat
  f : Nat
  g : Nat
  h : Nat

def sha256Init : Sha256State :=
  ⟨1779033703, 3144134277, 1013904242, 2773480762,
   1359893119, 2600822924, 528734635, 1541459225⟩

def sha256Pad (msg : List Nat) : List Nat :=
  let len := msg.length
  let zeros := (120 - ((len + 1) % 64)) % 64
  msg ++ [128] ++ List.replicate zeros 0 ++ toBytesBE 8 (len * 8)

def bytesToWords (bs : List Nat) : List Nat :=
  match bs with
  | b1 :: b2 :: b3 :: b4 :: rest =>
    ((b1 <<< 24) ||| (b2 <<< 16) ||| (b3 <<< 8) ||| b4) :: bytesToWords rest
  | _ => []

def sha256ChunksGo : Nat → List Nat → List (List Nat)
  | 0, _ => []
  | fuel + 1, l => if l.isEmpty then [] else l.take 64 :: sha256ChunksGo fuel (l.drop 64)

def sha256Chunks (l : List Nat) : List (List Nat) :=
  sha256ChunksGo (l.length + 1) l

def scheduleStep (w : List Nat) : List Nat :=
  let i := w.length
  let w15 := w.getD (i - 15) 0
  let w2 := w.getD (i - 2) 0
  let s0 := (rotr32 7 w15) ^^^ (rotr32 18 w15) ^^^ (w15 >>> 3)
  let s1 := (rotr32 17 w2) ^^^ (rotr32 19 w2) ^^^ (w2 >>> 10)
  w ++ [w32 (w.getD (i - 16) 0 + s0 + w.getD (i - 7) 0 + s1)]

def extendSchedule (fuel : Nat) (w : List Nat) : List Nat :=
  match fuel with
  | 0 => w
  | n + 1 => extendSchedule n (scheduleStep w)

def sha256Round (st : Sha256State) (ki wi : Nat) : Sha256State :=
  let s1 := (rotr32 6 st.e) ^^^ (rotr32 11 st.e) ^^^ (rotr32 25 st.e)
  let ch := (st.e &&& st.f) ^^^ ((st.e ^^^ 4294967295) &&& st.g)
  let temp1 := w32 (st.h + s1 + ch + ki + wi)
  let s0 := (rotr32 2 st.a) ^^^ (rotr32 13 st.a) ^^^ (rotr32 22 st.a)
  let maj := (st.a &&& st.b) ^^^ (st.a &&& st.c) ^^^ (st.b &&& st.c)
  let temp2 := w32 (s0 + maj)
  ⟨w32 (temp1 + temp2), st.a, st.b, st.c, w32 (st.d + temp1), st.e, st.f, st.g⟩

def sha256Chunk (st : Sha256State) (chunk : List Nat) : Sha256State :=
  let w := extendSchedule 48 (bytesToWords chunk)
  let fin := (sha256K.zip w).foldl (fun s kw => sha256Round s kw.1 kw.2) st
  ⟨w32 (st.a + fin.a), w32 (st.b + fin.b), w32 (st.c + fin.c), w32 (st.d + fin.d),
   w32 (st.e + fin.e), w32 (st.f + fin.f), w32 (st.g + fin.g), w32 (st.h + fin.h)⟩

def sha256Digest (msg : List Nat) : List Nat :=
  let fin := (sha256Chunks (sha256Pad msg)).foldl sha256Chunk sha256Init
  toBytesBE 4 fin.a ++ toBytesBE 4 fin.b ++ toBytesBE 4 fin.c ++ toBytesBE 4 fin.d ++
    toBytesBE 4 fin.e ++ toBytesBE 4 fin.f ++ toBytesBE 4 fin.g ++ toBytesBE 4 fin.h

/-- The URL-and-file-safe base64url alphabet. -/
def b64Alphabet : List Char :=
  "ABCDEFGHIJKLMNOPQRSTUVWXYZabcdefghijklmnopqrstuvwxyz0123456789-_".data

def b64Char (n : Nat) : Char :=
  b64Alphabet.getD n 'A'

/-- Base64url without padding, as produced by `digest("base64url")`. -/
def base64urlEncode (bs : List Nat) : List Char :=
  match bs with
  | b1 :: b2 :: b3 :: rest =>
    let n := b1 * 65536 + b2 * 256 + b3
    b64Char ((n >>> 18) &&& 63) :: b64Char ((n >>> 12) &&& 63) ::
      b64Char ((n >>> 6) &&& 63) :: b64Char (n &&& 63) :: base64urlEncode rest
  | [b1, b2] =>
    let n := b1 * 65536 + b2 * 256
    [b64Char ((n >>> 18) &&& 63), b64Char ((n >>> 12) &&& 63), b64Char ((n >>> 6) &&& 63)]
  | [b1] =>
    let n := b1 * 65536
    [b64Char ((n >>> 18) &&& 63), b64Char ((n >>> 12) &&& 63)]
  | [] => []

/-- The digest encoder applied to raw bytes: base64url of the SHA-256
digest, truncated to the first 15 characters (`.slice(0, 15)`). -/
def snapshotHashOfBytes (bs : List Nat) : String :=
  String.mk ((base64urlEncode (sha256Digest bs)).take 15)

/-- The digest encoder of `getSnapshotFileInfo`: hash of the UTF-8 bytes
of the suffix key. -/
def snapshotHash (fileSuffixKey : String) : String :=
  snapshotHashOfBytes (utf8Encode fileSuffixKey)

/-! ## Snapshot file identity -/

/-- The two module-level settings that identity derivation reads: the
snapshot root passed to `start` (non-null there) and the sub-directory
installed by `startTestCase` (empty when none). -/
structure SnapCfg where
  snapshotDirectory : String
  snapshotSubDirectory : String
deriving DecidableEq, Repr

/-- Node `path.join(dir, name)` for the two-argument form used by the
source, where either part may be empty. -/
def pathJoin (dir name : String) : String :=
  if dir.isEmpty then name
  else if name.isEmpty then dir
  else dir ++ "/" ++ name

/-- Node `path.resolve(dir, name)` where `dir` is absolute and `name`
relative. -/
def pathResolve (dir name : String) : String :=
  if name.isEmpty then dir else dir ++ "/" ++ name

structure SnapshotFileInfo where
  absoluteFilePath : String
  fileName : String
  filePrefixStr : String
  fileSuffixKey : String
deriving DecidableEq, Repr

/-- `getSnapshotFileInfo` from the source, parameterized by the installed
file-name generator (`snapshotFileNameGenerator`, default
`defaultSnapshotFileNameGenerator`). -/
def getSnapshotFileInfo (gen : Request → Except String Fingerprint) (cfg : SnapCfg)
    (request : Request) : Except String SnapshotFileInfo :=
  match gen request with
  | .error e => .error e
  | .ok fp =>
    let hash := snapshotHash fp.fileSuffixKey
    let fileName := pathJoin cfg.snapshotSubDirectory (fp.filePrefixStr ++ "-" ++ hash ++ ".json")
    .ok
      { absoluteFilePath := pathResolve cfg.snapshotDirectory fileName
        fileName := fileName
        filePrefixStr := fp.filePrefixStr
        fileSuffixKey := fp.fileSuffixKey }

/-! ## Snapshot records and the store -/

/-- Body of a stored request or response together with its recorded type
tag: `requestType`/`responseType` is `json` exactly when the body was
parsed as JSON on capture, and `text` when it was stored as raw text. -/
inductive BodyVal where
  | jsonBody (v : JsonVal)
  | textBody (s : String)

structure StoredRequest where
  method : String
  url : String
  headers : List (String × String)
  body : BodyVal

structure StoredResponse where
  status : Nat
  statusText : String
  headers : List (String × String)
  body : BodyVal

/-- One snapshot record (the JSON document persisted per fingerprint). -/
structure Snapshot where
  fileSuffixKey : String
  request : StoredRequest
  response : StoredResponse

/-- A live network response as delivered to the response event. -/
structure ResponseIn where
  status : Nat
  statusText : String
  headers : List (String × String)
  body : String
deriving Repr

/-- Body classification on write: if the content type denotes JSON
(standard or the amz vendor type), try `JSON.parse` and fall back to raw
text on failure; otherwise store raw text. -/
def classifyBody (contentType : Option String) (bodyText : String) : BodyVal :=
  let ct := contentType.getD ""
  if strIncludes ct "application/json" || strIncludes ct "application/x-amz-json-1.0" then
    match jsonParse bodyText with
    | some v => .jsonBody v
    | none => .textBody bodyText
  else .textBody bodyText

/-- The snapshot value assembled by `saveFreshSnapshot`. -/
def buildSnapshot (request : Request) (response : ResponseIn) (fileSuffixKey : String) :
    Snapshot :=
  { fileSuffixKey := fileSuffixKey
    request :=
      { method := request.method
        url := request.url
        headers := request.headers
        body := classifyBody (headersGet request.headers "content-type") request.body }
    response :=
      { status := response.status
        statusText := response.statusText
        headers := response.headers
        body := classifyBody (headersGet response.headers "content-type") response.body } }

/-- The value a save settles to (`ReadSnapshotReturnType`). -/
structure SaveResult where
  snapshot : Snapshot
  absoluteFilePath : String
  fileName : String

/-- A file present in the snapshot directory: its absolute path, its path
relative to the snapshot root, and its parsed record. -/
structure FsEntry where
  absolutePath : String
  relativeName : String
  snapshot : Snapshot

/-- The module-level mutable state of the snapshotter process: the write
dedup cache `alreadyWrittenFiles`, the read cache `snapshotCache`, the
usage tracker set `readFiles`, and the snapshot directory contents (disk
reads and writes are modelled against `fsFiles`; `writeLog` records each
physical `fs.writeFile`, in order). -/
structure ProcState where
  alreadyWrittenFiles : List (String × SaveResult)
  snapshotCache : List (String × Snapshot)
  readFiles : List String
  fsFiles : List FsEntry
  writeLog : List String

def initialState (fsFiles : List FsEntry) : ProcState :=
  { alreadyWrittenFiles := [], snapshotCache := [], readFiles := [],
    fsFiles := fsFiles, writeLog := [] }

/-- `saveSnapshot` from the source: the first call for an absolute path
runs `saveFreshSnapshot` (one physical write) and records the pending
result in `alreadyWrittenFiles`; any later call for the same path returns
the recorded result untouched.  The map check and the map set are
adjacent synchronous steps of the single-threaded event loop, so
concurrent response events serialize through this function. -/
def saveSnapshot (st : ProcState) (request : Request) (response : ResponseIn)
    (fileInfo : SnapshotFileInfo) : SaveResult × ProcState :=
  match lookupAssoc st.alreadyWrittenFiles fileInfo.absoluteFilePath with
  | some r => (r, st)
  | none =>
    let snap := buildSnapshot request response fileInfo.fileSuffixKey
    let r : SaveResult :=
      { snapshot := snap
        absoluteFilePath := fileInfo.absoluteFilePath
        fileName := fileInfo.fileName }
    (r,
      { st with
          alreadyWrittenFiles := (fileInfo.absoluteFilePath, r) :: st.alreadyWrittenFiles
          fsFiles :=
            { absolutePath := fileInfo.absoluteFilePath
              relativeName := fileInfo.fileName
              snapshot := snap } :: st.fsFiles
          writeLog := st.writeLog ++ [fileInfo.absoluteFilePath] })

/-- One response event that reached the write path. -/
structure SaveEvent where
  request : Request
  response : ResponseIn
  fileInfo : SnapshotFileInfo

/-- A sequence of saves as they interleave on the single-threaded event
loop, together with the value each call returned. -/
def processSaves (st : ProcState) (events : List SaveEvent) : List SaveResult × ProcState :=
  match events with
  | [] => ([], st)
  | e :: rest =>
    let (r, st2) := saveSnapshot st e.request e.response e.fileInfo
    let (rs, st3) := processSaves st2 rest
    (r :: rs, st3)

/-! ## Character diff

Models the external character-diff helper (`diffChars` of the npm diff
library): a minimal edit script between two character sequences.  Changes
are emitted one character at a time, so the total compared length is the
script length and the inserted-plus-removed length is the count of added
or removed entries; both agree with the sums of part lengths the source
computes over the grouped script of the real library. -/

structure DiffChange where
  value : Char
  added : Bool
  removed : Bool
deriving DecidableEq, Repr

def editLen (d : List DiffChange) : Nat :=
  (d.filter (fun c => c.added || c.removed)).length

def diffGo : Nat → List Char → List Char → List DiffChange
  | 0, _, _ => []
  | fuel + 1, xs0, ys0 =>
    match xs0, ys0 with
    | [], [] => []
    | [], y :: ys => { value := y, added := true, removed := false } :: diffGo fuel [] ys
    | x :: xs, [] => { value := x, added := false, removed := true } :: diffGo fuel xs []
    | x :: xs, y :: ys =>
      if x = y then { value := x, added := false, removed := false } :: diffGo fuel xs ys
      else
        let viaRemove :=
          { value := x, added := false, removed := true } :: diffGo fuel xs (y :: ys)
        let viaAdd :=
          { value := y, added := true, removed := false } :: diffGo fuel (x :: xs) ys
        if editLen viaRemove ≤ editLen viaAdd then viaRemove else viaAdd

def diffChars (xs ys : List Char) : List DiffChange :=
  diffGo (xs.length + ys.length + 1) xs ys

/-! ## Closest-match finder -/

structure MatchInfo where
  file : String
  fileSuffixKey : String
  differences : List DiffChange
deriving DecidableEq, Repr

/-- The `diffRatio < 0.5` test of the source, in exact arithmetic:
`d / t < 1 / 2` iff `2 * d < t` for `t > 0`, and for `t = 0` the source
compares `NaN < 0.5`, which is false, matching `2 * 0 < 0`. -/
def ratioLtHalf (d t : Nat) : Bool :=
  2 * d < t

/-- The `diffRatio < smallestDiff` test: `smallestDiff` starts as
infinity and is afterwards a recorded ratio `d0 / t0` with `t0 > 0`. -/
def ratioLt (d t : Nat) : Option (Nat × Nat) → Bool
  | none => true
  | some (d0, t0) => d * t0 < d0 * t

/-- The `forEach` accumulation over candidate files. -/
def closestLoop (key : String) (items : List (String × String))
    (acc : Option MatchInfo × Option (Nat × Nat)) : Option MatchInfo × Option (Nat × Nat) :=
  match items with
  | [] => acc
  | (file, storedKey) :: rest =>
    let differences := diffChars storedKey.data key.data
    let t := differences.length
    let d := editLen differences
    if ratioLtHalf d t && ratioLt d t acc.2 then
      closestLoop key rest
        (some { file := file, fileSuffixKey := storedKey, differences := differences },
         some (d, t))
    else closestLoop key rest acc

/-- The candidate list the finder considers: files whose basename starts
with the missed prefix followed by a dash, as `(relative name, stored
suffix key)` pairs. -/
def candidateItems (files : List FsEntry) (filePre : String) : List (String × String) :=
  (files.filter (fun e => startsWithStr (basenameOf e.relativeName) (filePre ++ "-"))).map
    (fun e => (e.relativeName, e.snapshot.fileSuffixKey))

/-- `findClosestSnapshotFile` from the source.  `files` stands for the
recursive directory listing together with each candidate file content
(`readExistingSnapshotFilesList` plus the per-file suffix-key cache). -/
def findClosestSnapshotFile (mode : String) (dir : Option String) (files : List FsEntry)
    (filePre fileSuffixKey : String) : Option MatchInfo :=
  if mode ≠ "read" ∨ dir = none then none
  else (closestLoop fileSuffixKey (candidateItems files filePre) (none, none)).1

/-! ## Response synthesizer -/

/-- The zlib recompression collaborators (`gzip`, `brotliCompress`,
`deflate` promisified in the source); their exact output bytes are
irrelevant to the snapshotter, so they are kept as parameters. -/
structure CompressFns where
  gzipC : List Nat → List Nat
  brotliC : List Nat → List Nat
  deflateC : List Nat → List Nat

structure SynthResponse where
  status : Nat
  statusText : String
  headers : List (String × String)
  body : List Nat
deriving DecidableEq, Repr

def isJsonBody : BodyVal → Bool
  | .jsonBody _ => true
  | .textBody _ => false

/-- The `encodedBody` step of `sendResponse`: re-serialize a JSON body
compactly, or use the stored text (`body || ""`). -/
def encodedBodyOf (snap : Snapshot) : String :=
  match snap.response.body with
  | .jsonBody v => jsonStringify v
  | .textBody s => s

/-- The `bufferBody` computation of `sendResponse`: dispatch on the first
`content-encoding` response header (name compared lowercased, value by
substring inclusion, in the order of the source) and recompress the
encoded body, failing on `compress` and `zstd`; with no or an unknown
content-encoding the plain UTF-8 bytes are used.  The string passed to
the compressors and to `Buffer.from` is taken as its UTF-8 bytes. -/
def bufferBodyOf (fns : CompressFns) (snap : Snapshot) : Except String (List Nat) :=
  let encodedBody := encodedBodyOf snap
  match snap.response.headers.find? (fun t => lowerStr t.1 = "content-encoding") with
  | some ce =>
    if strIncludes ce.2 "br" then .ok (fns.brotliC (utf8Encode encodedBody))
    else if strIncludes ce.2 "gzip" then .ok (fns.gzipC (utf8Encode encodedBody))
    else if strIncludes ce.2 "deflate" then .ok (fns.deflateC (utf8Encode encodedBody))
    else if strIncludes ce.2 "compress" then .error "compress encoding not supported"
    else if strIncludes ce.2 "zstd" then .error "zstd encoding not supported"
    else .ok (utf8Encode encodedBody)
  | none => .ok (utf8Encode encodedBody)

/-- `sendResponse` from the source.  The header rewrite (a fresh
`content-length` for re-serialized JSON bodies) and the body are returned
as handed to the `Response` constructor. -/
def sendResponse (fns : CompressFns) (snap : Snapshot) : Except String SynthResponse :=
  match bufferBodyOf fns snap with
  | .error e => .error e
  | .ok bufferBody =>
    .ok
      { status := snap.response.status
        statusText := snap.response.statusText
        headers := snap.response.headers.map (fun t =>
          if t.1 = "content-length" && isJsonBody snap.response.body then
            (t.1, toString bufferBody.length)
          else t)
        body := bufferBody }

/-! ## The read path and the event handlers -/

/-- The directory the closest-match finder searches
(root, or root joined with the active sub-directory). -/
def currentDir (cfg : SnapCfg) : String :=
  if ¬cfg.snapshotSubDirectory.isEmpty then
    pathResolve cfg.snapshotDirectory cfg.snapshotSubDirectory
  else cfg.snapshotDirectory

inductive ReadErr where
  | missing (closest : Option MatchInfo)
deriving Repr

def lookupFs (files : List FsEntry) (absPath : String) : Option Snapshot :=
  (files.find? (fun e => e.absolutePath = absPath)).map (·.snapshot)

/-- `readSnapshot` from the source: serve from the in-memory cache, else
read and parse the file (recording it in the cache and in `readFiles`),
else — the `ENOENT` branch — return no snapshot in `append` mode and
throw the missing-snapshot error (with the closest-match diagnostic)
otherwise. -/
def readSnapshot (mode : String) (cfg : SnapCfg) (st : ProcState) (fi : SnapshotFileInfo) :
    Except ReadErr (Option Snapshot × ProcState) :=
  match lookupAssoc st.snapshotCache fi.absoluteFilePath with
  | some snap => .ok (some snap, st)
  | none =>
    match lookupFs st.fsFiles fi.absoluteFilePath with
    | some snap =>
      .ok (some snap,
        { st with
            snapshotCache := (fi.absoluteFilePath, snap) :: st.snapshotCache
            readFiles := fi.fileName :: st.readFiles })
    | none =>
      if mode = "append" then .ok (none, st)
      else
        .error (.missing
          (findClosestSnapshotFile mode (some (currentDir cfg)) st.fsFiles
            fi.filePrefixStr fi.fileSuffixKey))

inductive ReqOutcome where
  | errorIgnored
  | errorGen (msg : String)
  | errorMissing (closest : Option MatchInfo)
  | errorEncoding (msg : String)
  | respond (r : SynthResponse)
  | passThrough
deriving DecidableEq, Repr

/-- The `request` event handler installed by `start`: the ignore-rule
check (fatal in `read` mode), then — only in `read` and `append` modes
for requests that are not ignored — identity computation, snapshot read
and response injection.  `passThrough` means the handler returned without
injecting a response, letting the request continue untouched. -/
def onRequest (gen : Request → Except String Fingerprint) (fns : CompressFns) (cfg : SnapCfg)
    (mode : String) (ignored : Bool) (st : ProcState) (req : Request) :
    ReqOutcome × ProcState :=
  if ignored ∧ mode = "read" then (.errorIgnored, st)
  else if (mode = "read" ∨ mode = "append") ∧ ¬ignored then
    match getSnapshotFileInfo gen cfg req with
    | .error m => (.errorGen m, st)
    | .ok fi =>
      match readSnapshot mode cfg st fi with
      | .error (.missing c) => (.errorMissing c, st)
      | .ok (none, st2) => (.passThrough, st2)
      | .ok (some snap, st2) =>
        match sendResponse fns snap with
        | .error m => (.errorEncoding m, st2)
        | .ok r => (.respond r, st2)
  else (.passThrough, st)

/-- The `response` event handler installed by `start`: recover the file
identity (from the per-request cache when the request event computed it,
recomputing otherwise), then write the snapshot exactly when the request
is not ignored and the mode policy allows it: always in `update` mode,
and in `append` mode only when this file name was not read during this
run.  The boolean reports whether `saveSnapshot` was invoked. -/
def onResponse (gen : Request → Except String Fingerprint) (cfg : SnapCfg) (mode : String)
    (ignored : Bool) (cachedInfo : Option SnapshotFileInfo) (st : ProcState)
    (req : Request) (resp : ResponseIn) : Except String (Bool × ProcState) :=
  let fiE := match cachedInfo with
    | some fi => Except.ok fi
    | none => getSnapshotFileInfo gen cfg req
  match fiE with
  | .error m => .error m
  | .ok fi =>
    if ¬ignored ∧ (mode = "update" ∨ (mode = "append" ∧ fi.fileName ∉ st.readFiles)) then
      let (_, st2) := saveSnapshot st req resp fi
      .ok (true, st2)
    else .ok (false, st)

def savedFlag : Except String (Bool × ProcState) → Bool
  | .ok (b, _) => b
  | .error _ => false

/-- The operating mode: `process.env.SNAPSHOT || "read"` — the fallback
to `read` fires exactly when the variable is unset or set to the empty
string (the only falsy string). -/
def effectiveMode : Option String → String
  | none => "read"
  | some s => if s = "" then "read" else s

/-! ## Sample data used by concrete witnesses and counterexamples -/

def xkcdReq : Request :=
  { method := "GET", url := "https://xkcd.com/info.0.json", headers := [], body := "" }

def cfg0 : SnapCfg :=
  { snapshotDirectory := "/snapshots", snapshotSubDirectory := "" }

def idFns : CompressFns :=
  { gzipC := id, brotliC := id, deflateC := id }

/-- Compressors that prepend one byte, so compressed length differs from
plain length (enough to observe the content-length rewrite). -/
def padFns : CompressFns :=
  { gzipC := fun bs => 31 :: bs, brotliC := fun bs => 27 :: bs, deflateC := fun bs => 120 :: bs }

def st0 : ProcState := initialState []

def sampleResp : ResponseIn :=
  { status := 200, statusText := "OK",
    headers := [("content-type", "application/json")], body := "\x7b\x7d" }

/-- The file identity the snapshotter computes for `xkcdReq` under `cfg0`
(the hash value matches the snapshot file name shown in the repository
README). -/
def xkcdFi : SnapshotFileInfo :=
  { absoluteFilePath := "/snapshots/get-xkcd-com-info-0-arAlFb5gfcr9aCN.json"
    fileName := "get-xkcd-com-info-0-arAlFb5gfcr9aCN.json"
    filePrefixStr := "get-xkcd-com-info-0"
    fileSuffixKey := "GET#https://xkcd.com/info.0.json#" }

def dynBody : String := "\x7b\"TableName\":\"books\"\x7d"

def reqDynGet : Request :=
  { method := "POST", url := "https://dynamodb.us-east-1.amazonaws.com/",
    headers := [("x-amz-target", "DynamoDB_20120810.GetItem")], body := dynBody }

def reqDynPut : Request :=
  { method := "POST", url := "https://dynamodb.us-east-1.amazonaws.com/",
    headers := [("x-amz-target", "DynamoDB_20120810.PutItem")], body := dynBody }

def reqDynEmpty : Request :=
  { method := "POST", url := "https://dynamodb.us-east-1.amazonaws.com/",
    headers := [("content-type", "application/x-amz-json-1.0")], body := "" }

deriving instance DecidableEq for Except

set_option maxRecDepth 40000

/-- The `dataList.join("#")` of the source written out for the three-item
derivation-property list. -/
theorem intercalateHashTriple (a b c : String) :
    String.intercalate "#" [a, b, c] = a ++ "#" ++ b ++ "#" ++ c := by
  simp [String.intercalate, String.intercalate.go, String.append_assoc]

/-! ## Claim C1: unrecognized operating modes -/

/-- C1 counterexample: the nonempty unrecognized mode value `verbose`
remains in force (no fallback to `read`), and under it a request event
does not attempt a snapshot read at all — the handler lets the request
pass through, where `read` mode on the same state raises the fatal
missing-snapshot error.  This refutes the claim that every value other
than `read`, `update`, `append`, `ignore` behaves as `read`. -/
theorem c1UnrecognizedModeCounterexample :
    effectiveMode (some "verbose") = "verbose" ∧
    (onRequest defaultSnapshotFileNameGenerator idFns cfg0 "verbose" false st0 xkcdReq).1 =
      ReqOutcome.passThrough ∧
    (onRequest defaultSnapshotFileNameGenerator idFns cfg0 "read" false st0 xkcdReq).1 =
      ReqOutcome.errorMissing none ∧
    ReqOutcome.passThrough ≠ ReqOutcome.errorMissing none :=
  ⟨rfl, by decide, by decide, by decide⟩

/-- C1 (amended): an unset or empty mode configuration falls back to
`read`, but every nonempty value other than the four recognized ones
stays in force and behaves as `ignore`: the request handler attempts no
snapshot read (every request passes through untouched) and the response
handler never invokes a snapshot write. -/
theorem c1UnrecognizedModeBehavesAsIgnore (s : String)
    (hmem : s ∉ (["read", "update", "append", "ignore"] : List String)) (hempty : s ≠ "") :
    effectiveMode (some s) = s ∧
    (∀ gen fns cfg ig st req, onRequest gen fns cfg s ig st req = (.passThrough, st)) ∧
    (∀ gen cfg ig fi st req resp,
      onResponse gen cfg s ig (some fi) st req resp = .ok (false, st)) ∧
    effectiveMode none = "read" ∧ effectiveMode (some "") = "read" := by
  simp only [List.mem_cons, List.not_mem_nil, or_false, not_or] at hmem
  obtain ⟨hread, hupdate, happend, hignore⟩ := hmem
  refine ⟨by simp [effectiveMode, hempty], ?_, ?_, rfl, rfl⟩
  · intro gen fns cfg ig st req
    simp [onRequest, hread, happend]
  · intro gen cfg ig fi st req resp
    simp [onResponse, hupdate, happend]

/-- C1 witness: the amended theorem applied to the concrete mode value
`verbose` and a concrete response event. -/
theorem c1UnrecognizedModeWitness :
    onResponse defaultSnapshotFileNameGenerator cfg0 "verbose" false (some xkcdFi) st0
      xkcdReq sampleResp = .ok (false, st0) :=
  (c1UnrecognizedModeBehavesAsIgnore "verbose" (by decide) (by decide)).2.2.1
    defaultSnapshotFileNameGenerator cfg0 false xkcdFi st0 xkcdReq sampleResp

/-! ## Claim C2: requests agreeing on method, URL and body -/

/-- Every successful run of the default generator derives the suffix key
as `method#url#body`. -/
theorem genOkSuffixKey (r : Request) (fp : Fingerprint)
    (h : defaultSnapshotFileNameGenerator r = .ok fp) : fp.fileSuffixKey = suffixKeyOf r := by
  unfold defaultSnapshotFileNameGenerator at h
  split at h
  · exact absurd h (by simp)
  · split at h
    · split at h
      · exact absurd h (by simp)
      · cases h
        rfl
    · cases h
      rfl

/-- C2 (amended): requests with identical method, URL and body always get
the identical suffix key, and — whenever the URL hostname does not match
the multiplexed DynamoDB pattern — the identical name prefix and thus the
identical snapshot file identity.  (For DynamoDB-pattern hostnames the
`x-amz-target` header also participates in the prefix, see the
counterexample.) -/
theorem c2SameMethodUrlBodySameIdentity (r1 r2 : Request) (u : URLParts)
    (hm : r1.method = r2.method) (hu : r1.url = r2.url) (hb : r1.body = r2.body) :
    (∀ fp1 fp2, defaultSnapshotFileNameGenerator r1 = .ok fp1 →
        defaultSnapshotFileNameGenerator r2 = .ok fp2 →
        fp1.fileSuffixKey = fp2.fileSuffixKey) ∧
    (urlParse r1.url = some u → dynamodbMatch u.hostname = none →
      defaultSnapshotFileNameGenerator r1 = defaultSnapshotFileNameGenerator r2 ∧
      ∀ cfg, getSnapshotFileInfo defaultSnapshotFileNameGenerator cfg r1 =
        getSnapshotFileInfo defaultSnapshotFileNameGenerator cfg r2) := by
  constructor
  · intro fp1 fp2 h1 h2
    rw [genOkSuffixKey r1 fp1 h1, genOkSuffixKey r2 fp2 h2]
    unfold suffixKeyOf
    rw [hm, hu, hb]
  · intro hp hd
    have hp2 : urlParse r2.url = some u := hu ▸ hp
    have hgen : defaultSnapshotFileNameGenerator r1 = defaultSnapshotFileNameGenerator r2 := by
      unfold defaultSnapshotFileNameGenerator
      rw [hp, hp2]
      simp [hd, suffixKeyOf, hm, hu, hb]
    refine ⟨hgen, fun cfg => ?_⟩
    unfold getSnapshotFileInfo
    rw [hgen]

/-- C2 witness: the amended theorem applied to two concrete
header-differing copies of the xkcd request. -/
theorem c2SameMethodUrlBodyWitness :
    defaultSnapshotFileNameGenerator xkcdReq =
      defaultSnapshotFileNameGenerator
        { xkcdReq with headers := [("x-debug", "1")] } :=
  ((c2SameMethodUrlBodySameIdentity xkcdReq { xkcdReq with headers := [("x-debug", "1")] }
      { hostname := "xkcd.com", pathname := "/info.0.json" } rfl rfl rfl).2
    (by decide) (by decide)).1

/-- C2 counterexample: two DynamoDB requests identical in method, URL and
body but differing in the `x-amz-target` header receive different name
prefixes, hence different snapshot file identities. -/
theorem c2HeaderChangesDynamoPrefix :
    reqDynGet.method = reqDynPut.method ∧ reqDynGet.url = reqDynPut.url ∧
    reqDynGet.body = reqDynPut.body ∧
    defaultSnapshotFileNameGenerator reqDynGet =
      .ok { filePrefixStr := "dynamodb-us-east-1-get-item-books"
            fileSuffixKey := "POST#https://dynamodb.us-east-1.amazonaws.com/#" ++ dynBody } ∧
    defaultSnapshotFileNameGenerator reqDynPut =
      .ok { filePrefixStr := "dynamodb-us-east-1-put-item-books"
            fileSuffixKey := "POST#https://dynamodb.us-east-1.amazonaws.com/#" ++ dynBody } ∧
    ("dynamodb-us-east-1-get-item-books" : String) ≠ "dynamodb-us-east-1-put-item-books" :=
  ⟨rfl, rfl, rfl, by decide, by decide, by decide⟩

/-! ## Claim C3: empty or unparsable bodies in the generator -/

/-- C3 (amended): for every request whose hostname does not match the
DynamoDB pattern, the default generator never throws: it succeeds and the
body text participates verbatim in the suffix key (hence as the empty
string when the body is empty).  For DynamoDB-pattern hostnames an empty
or non-JSON body makes `JSON.parse` throw, see the counterexample. -/
theorem c3NonDynamoBodyParticipates (r : Request) (u : URLParts)
    (hp : urlParse r.url = some u) (hd : dynamodbMatch u.hostname = none) :
    ∃ fp, defaultSnapshotFileNameGenerator r = .ok fp ∧
      fp.fileSuffixKey = suffixKeyOf r ∧
      suffixKeyOf r = r.method ++ "#" ++ r.url ++ "#" ++ r.body := by
  refine
    ⟨{ filePrefixStr :=
         joinNonEmpty "-"
           [lowerStr r.method, slugModel u.hostname,
            slugModel (replaceFirstOccStr u.pathname ".json")]
       fileSuffixKey := suffixKeyOf r },
     ?_, rfl, intercalateHashTriple r.method r.url r.body⟩
  unfold defaultSnapshotFileNameGenerator
  rw [hp]
  simp only [hd]

/-- C3 witness: the amended theorem applied to the empty-body xkcd
request. -/
theorem c3NonDynamoWitness :
    ∃ fp, defaultSnapshotFileNameGenerator xkcdReq = .ok fp ∧
      fp.fileSuffixKey = suffixKeyOf xkcdReq ∧
      suffixKeyOf xkcdReq = xkcdReq.method ++ "#" ++ xkcdReq.url ++ "#" ++ xkcdReq.body :=
  c3NonDynamoBodyParticipates xkcdReq { hostname := "xkcd.com", pathname := "/info.0.json" }
    (by decide) (by decide)

/-- C3 counterexample: a request whose hostname matches the DynamoDB
pattern and whose body is empty makes the default generator throw
(`JSON.parse("")` raises a `SyntaxError`), refuting the
claim for DynamoDB-pattern requests. -/
theorem c3DynamoEmptyBodyThrows :
    reqDynEmpty.body = "" ∧
    dynamodbMatch "dynamodb.us-east-1.amazonaws.com" = some "us-east-1" ∧
    defaultSnapshotFileNameGenerator reqDynEmpty =
      .error "SyntaxError: Unexpected token in JSON" :=
  ⟨rfl, by decide, by decide⟩

/-! ## Claim C9: the digest encoder -/

theorem toBytesBE_length (n x : Nat) : (toBytesBE n x).length = n := by
  induction n generalizing x with
  | zero => rfl
  | succ m ih => simp [toBytesBE, ih]

theorem sha256Digest_length (msg : List Nat) : (sha256Digest msg).length = 32 := by
  unfold sha256Digest
  simp [List.length_append, toBytesBE_length]

theorem base64urlEncode_length (bs : List Nat) :
    (base64urlEncode bs).length =
      4 * (bs.length / 3) + (if bs.length % 3 = 0 then 0 else bs.length % 3 + 1) := by
  induction bs using base64urlEncode.induct with
  | case1 b1 b2 b3 rest ih =>
    simp only [base64urlEncode, List.length_cons, ih]
    have e1 : rest.length + 1 + 1 + 1 = rest.length + 3 := by omega
    rw [e1, Nat.add_mod_right, Nat.add_div_right _ (by omega)]
    omega
  | case2 b1 b2 => simp [base64urlEncode]
  | case3 b1 => simp [base64urlEncode]
  | case4 => simp [base64urlEncode]

theorem b64Char_mem (n : Nat) : b64Char n ∈ b64Alphabet := by
  unfold b64Char
  by_cases h : n < b64Alphabet.length
  · rw [List.getD_eq_getElem _ _ h]
    exact List.getElem_mem h
  · rw [List.getD_eq_default _ _ (Nat.le_of_not_lt h)]
    decide

theorem base64urlEncode_mem (bs : List Nat) (c : Char) (h : c ∈ base64urlEncode bs) :
    c ∈ b64Alphabet := by
  induction bs using base64urlEncode.induct with
  | case1 b1 b2 b3 rest ih =>
    simp only [base64urlEncode, List.mem_cons] at h
    rcases h with rfl | rfl | rfl | rfl | h
    · exact b64Char_mem _
    · exact b64Char_mem _
    · exact b64Char_mem _
    · exact b64Char_mem _
    · exact ih h
  | case2 b1 b2 =>
    simp only [base64urlEncode, List.mem_cons, List.not_mem_nil, or_false] at h
    rcases h with rfl | rfl | rfl <;> exact b64Char_mem _
  | case3 b1 =>
    simp only [base64urlEncode, List.mem_cons, List.not_mem_nil, or_false] at h
    rcases h with rfl | rfl <;> exact b64Char_mem _
  | case4 =>
    simp [base64urlEncode] at h

/-- C9: the digest encoder factors through the UTF-8 bytes of the suffix
key (it is a function of those bytes alone — no randomness or environment
input appears anywhere in the pipeline) and always returns exactly 15
characters, each drawn from the URL/file-safe base64url alphabet. -/
theorem c9DigestEncoderFixedLength (key : String) :
    (snapshotHash key).length = 15 ∧
    (∀ c ∈ (snapshotHash key).data, c ∈ b64Alphabet) ∧
    snapshotHash key = snapshotHashOfBytes (utf8Encode key) := by
  refine ⟨?_, ?_, rfl⟩
  · show (String.mk ((base64urlEncode (sha256Digest (utf8Encode key))).take 15)).length = 15
    have hlen : (base64urlEncode (sha256Digest (utf8Encode key))).length = 43 := by
      rw [base64urlEncode_length, sha256Digest_length]
      decide
    simp [String.length, List.length_take, hlen]
  · intro c hc
    exact base64urlEncode_mem _ c (List.take_subset _ _ hc)

/-! ## Claims C7, C8, C10: the response synthesizer -/

def snapJsonGzip : Snapshot :=
  { fileSuffixKey := "GET#https://e.com/#"
    request := { method := "GET", url := "https://e.com/", headers := [], body := .textBody "" }
    response :=
      { status := 200, statusText := "OK"
        headers := [("content-encoding", "gzip"), ("content-length", "999")]
        body := .jsonBody (.obj []) } }

/-- The response `sendResponse` synthesizes from `snapJsonGzip` under
`padFns`: the two-byte JSON text recompressed to three bytes, with the
`content-length` header rewritten accordingly. -/
def rJsonGzip : SynthResponse :=
  { status := 200, statusText := "OK"
    headers := [("content-encoding", "gzip"), ("content-length", "3")]
    body := [31, 123, 125] }

def snapZstd : Snapshot :=
  { fileSuffixKey := "GET#https://e.com/#"
    request := { method := "GET", url := "https://e.com/", headers := [], body := .textBody "" }
    response :=
      { status := 200, statusText := "OK"
        headers := [("content-encoding", "zstd")]
        body := .textBody "hello" } }

def snapUnknownEnc : Snapshot :=
  { fileSuffixKey := "GET#https://e.com/#"
    request := { method := "GET", url := "https://e.com/", headers := [], body := .textBody "" }
    response :=
      { status := 200, statusText := "OK"
        headers := [("content-encoding", "identity")]
        body := .textBody "hello" } }

/-- C7: for a stored snapshot whose response type is JSON and whose
stored response headers carry a `content-length` entry, every successful
synthesis rewrites every `content-length` entry to the byte length of the
actual re-encoded body (after JSON re-serialization and whatever
recompression the declared content-encoding dictates). -/
theorem c7JsonContentLengthRewrite (fns : CompressFns) (snap : Snapshot) (v : JsonVal)
    (cl : String) (r : SynthResponse)
    (hjson : snap.response.body = .jsonBody v)
    (hcl : ("content-length", cl) ∈ snap.response.headers)
    (hok : sendResponse fns snap = .ok r) :
    ("content-length", toString r.body.length) ∈ r.headers ∧
    ∀ p ∈ r.headers, p.1 = "content-length" → p.2 = toString r.body.length := by
  unfold sendResponse at hok
  rcases hb : bufferBodyOf fns snap with e | bufferBody
  · rw [hb] at hok
    exact absurd hok (by simp)
  · rw [hb] at hok
    cases hok
    constructor
    · refine List.mem_map.mpr ⟨("content-length", cl), hcl, ?_⟩
      simp [hjson, isJsonBody]
    · intro p hp hname
      obtain ⟨q, hq, hfq⟩ := List.mem_map.mp hp
      by_cases hq1 : q.1 = "content-length"
      · rw [← hfq]
        simp [hq1, hjson, isJsonBody]
      · rw [← hfq] at hname
        simp [hq1, hjson, isJsonBody] at hname

/-- C7 witness: the theorem applied to a concrete gzip-encoded JSON
snapshot and concrete compressors. -/
theorem c7JsonContentLengthWitness :
    snapJsonGzip.response.body = BodyVal.jsonBody (.obj []) ∧
    ("content-length", "999") ∈ snapJsonGzip.response.headers ∧
    sendResponse padFns snapJsonGzip = .ok rJsonGzip ∧
    (("content-length", toString rJsonGzip.body.length) ∈ rJsonGzip.headers ∧
     ∀ p ∈ rJsonGzip.headers, p.1 = "content-length" → p.2 = toString rJsonGzip.body.length) :=
  ⟨rfl, by decide, by decide,
   c7JsonContentLengthRewrite padFns snapJsonGzip (.obj []) "999" rJsonGzip rfl
     (by decide) (by decide)⟩

/-- C8: a stored snapshot whose (first) `content-encoding` response
header declares `compress` or `zstd` makes response synthesis fail with
an error instead of producing a response. -/
theorem c8UnsupportedEncodingFails (fns : CompressFns) (snap : Snapshot) (ce : String × String)
    (hfind : snap.response.headers.find? (fun t => lowerStr t.1 = "content-encoding") = some ce)
    (hval : ce.2 = "compress" ∨ ce.2 = "zstd") :
    ∃ msg, sendResponse fns snap = .error msg := by
  rcases hval with h | h
  · have hb1 : strIncludes ce.2 "br" = false := by rw [h]; decide
    have hb2 : strIncludes ce.2 "gzip" = false := by rw [h]; decide
    have hb3 : strIncludes ce.2 "deflate" = false := by rw [h]; decide
    have hb4 : strIncludes ce.2 "compress" = true := by rw [h]; decide
    have hbuf : bufferBodyOf fns snap = .error "compress encoding not supported" := by
      unfold bufferBodyOf
      rw [hfind]
      simp [hb1, hb2, hb3, hb4]
    exact ⟨_, by unfold sendResponse; rw [hbuf]⟩
  · have hb1 : strIncludes ce.2 "br" = false := by rw [h]; decide
    have hb2 : strIncludes ce.2 "gzip" = false := by rw [h]; decide
    have hb3 : strIncludes ce.2 "deflate" = false := by rw [h]; decide
    have hb4 : strIncludes ce.2 "compress" = false := by rw [h]; decide
    have hb5 : strIncludes ce.2 "zstd" = true := by rw [h]; decide
    have hbuf : bufferBodyOf fns snap = .error "zstd encoding not supported" := by
      unfold bufferBodyOf
      rw [hfind]
      simp [hb1, hb2, hb3, hb4, hb5]
    exact ⟨_, by unfold sendResponse; rw [hbuf]⟩

/-- C8 witness: the theorem applied to a concrete zstd-encoded
snapshot. -/
theorem c8UnsupportedEncodingWitness :
    snapZstd.response.headers.find? (fun t => lowerStr t.1 = "content-encoding") =
      some ("content-encoding", "zstd") ∧
    ∃ msg, sendResponse idFns snapZstd = .error msg :=
  ⟨by decide,
   c8UnsupportedEncodingFails idFns snapZstd ("content-encoding", "zstd") (by decide)
     (Or.inr rfl)⟩

/-- C10: a stored snapshot whose (first) `content-encoding` response
header value contains none of the substrings `br`, `gzip`, `deflate`,
`compress`, `zstd` synthesizes without error, and the response body is
the plain UTF-8 bytes of the (re-serialized) stored body, unencoded. -/
theorem c10UnknownEncodingFallsBack (fns : CompressFns) (snap : Snapshot)
    (ce : String × String)
    (hfind : snap.response.headers.find? (fun t => lowerStr t.1 = "content-encoding") = some ce)
    (h1 : strIncludes ce.2 "br" = false) (h2 : strIncludes ce.2 "gzip" = false)
    (h3 : strIncludes ce.2 "deflate" = false) (h4 : strIncludes ce.2 "compress" = false)
    (h5 : strIncludes ce.2 "zstd" = false) :
    ∃ r, sendResponse fns snap = .ok r ∧ r.body = utf8Encode (encodedBodyOf snap) := by
  have hbuf : bufferBodyOf fns snap = .ok (utf8Encode (encodedBodyOf snap)) := by
    unfold bufferBodyOf
    rw [hfind]
    simp [h1, h2, h3, h4, h5]
  unfold sendResponse
  rw [hbuf]
  exact ⟨_, rfl, rfl⟩

/-- C10 witness: the theorem applied to a concrete snapshot declaring
`content-encoding: identity`. -/
theorem c10UnknownEncodingWitness :
    snapUnknownEnc.response.headers.find? (fun t => lowerStr t.1 = "content-encoding") =
      some ("content-encoding", "identity") ∧
    ∃ r, sendResponse idFns snapUnknownEnc = .ok r ∧
      r.body = utf8Encode (encodedBodyOf snapUnknownEnc) :=
  ⟨by decide,
   c10UnknownEncodingFallsBack idFns snapUnknownEnc ("content-encoding", "identity")
     (by decide) (by decide) (by decide) (by decide) (by decide) (by decide)⟩

/-! ## Claim C6: closest-match selection -/

/-- Characters inserted plus characters removed between a stored suffix
key and the missed key. -/
def dCountOf (storedKey key : String) : Nat :=
  editLen (diffChars storedKey.data key.data)

/-- Total characters compared between a stored suffix key and the missed
key. -/
def tCountOf (storedKey key : String) : Nat :=
  (diffChars storedKey.data key.data).length

/-- `diffRatio < 0.5` for a candidate, in exact arithmetic. -/
def qualifiesKey (key storedKey : String) : Prop :=
  2 * dCountOf storedKey key < tCountOf storedKey key

/-- The match record the finder builds for a candidate item. -/
def mkMatchInfo (key : String) (it : String × String) : MatchInfo :=
  { file := it.1, fileSuffixKey := it.2, differences := diffChars it.2.data key.data }

theorem ratioLtHalf_iff (d t : Nat) : ratioLtHalf d t = true ↔ 2 * d < t := by
  simp [ratioLtHalf]

theorem ratioLt_none (d t : Nat) : ratioLt d t none = true := rfl

theorem ratioLt_some_iff (d t d0 t0 : Nat) :
    ratioLt d t (some (d0, t0)) = true ↔ d * t0 < d0 * t := by
  simp [ratioLt]

/-- Transitivity of the exact ratio order across the running minimum. -/
theorem ratioTrans (d t d0 t0 d2 t2 : Nat) (ht0 : 0 < t0)
    (hA : d * t0 < d0 * t) (hB : d0 * t2 ≤ d2 * t0) : d * t2 ≤ d2 * t := by
  have hd0 : 0 < d0 := by
    rcases Nat.eq_zero_or_pos d0 with h | h
    · subst h
      omega
    · exact h
  have key : (d0 * t0) * (d * t2) ≤ (d0 * t0) * (d2 * t) := by
    calc (d0 * t0) * (d * t2) = (d * t0) * (d0 * t2) := by ring
    _ ≤ (d0 * t) * (d2 * t0) := Nat.mul_le_mul (Nat.le_of_lt hA) hB
    _ = (d0 * t0) * (d2 * t) := by ring
  exact Nat.le_of_mul_le_mul_left key (Nat.mul_pos hd0 ht0)

/-- The invariant of the candidate-selection loop: either no qualifying
candidate has been seen, or the accumulator holds the first candidate
achieving the minimum ratio among the qualifying seen candidates. -/
def LoopInv (key : String) (seen : List (String × String)) :
    Option MatchInfo × Option (Nat × Nat) → Prop
  | (none, none) => ∀ it ∈ seen, ¬ qualifiesKey key it.2
  | (some m, some dt) =>
    ∃ it ∈ seen, m = mkMatchInfo key it ∧
      dt = (dCountOf it.2 key, tCountOf it.2 key) ∧ qualifiesKey key it.2 ∧
      ∀ it2 ∈ seen, qualifiesKey key it2.2 →
        dCountOf it.2 key * tCountOf it2.2 key ≤ dCountOf it2.2 key * tCountOf it.2 key
  | _ => False

theorem closestLoop_inv (key : String) (rest : List (String × String)) :
    ∀ (seen : List (String × String)) (acc : Option MatchInfo × Option (Nat × Nat)),
      LoopInv key seen acc → LoopInv key (seen ++ rest) (closestLoop key rest acc) := by
  induction rest with
  | nil =>
    intro seen acc h
    simpa using h
  | cons it rest ih =>
    intro seen acc h
    obtain ⟨file, storedKey⟩ := it
    rw [show seen ++ (file, storedKey) :: rest = (seen ++ [(file, storedKey)]) ++ rest by simp]
    rcases acc with ⟨o1, o2⟩
    rcases o1 with _ | m0 <;> rcases o2 with _ | dt0
    · -- accumulator (none, none): nothing qualifying seen yet
      simp only [LoopInv] at h
      simp only [closestLoop, ratioLt_none, Bool.and_true]
      split
      case isTrue h1 =>
        apply ih
        simp only [LoopInv]
        refine ⟨(file, storedKey), by simp, rfl, rfl, (ratioLtHalf_iff _ _).mp h1, ?_⟩
        intro it2 hit2 hq2
        rcases List.mem_append.mp hit2 with hseen | hnew
        · exact absurd hq2 (h it2 hseen)
        · have heq : it2 = (file, storedKey) := by simpa using hnew
          subst heq
          exact Nat.le_refl _
      case isFalse h1 =>
        apply ih
        simp only [LoopInv]
        intro it2 hit2
        rcases List.mem_append.mp hit2 with hseen | hnew
        · exact h it2 hseen
        · have heq : it2 = (file, storedKey) := by simpa using hnew
          subst heq
          exact fun hq2 => h1 ((ratioLtHalf_iff _ _).mpr hq2)
    · exact absurd h (by simp [LoopInv])
    · exact absurd h (by simp [LoopInv])
    · -- accumulator (some, some): a current best exists
      obtain ⟨d0, t0⟩ := dt0
      simp only [LoopInv] at h
      obtain ⟨it0, hit0, hm0, hdt0, hq0, hbound⟩ := h
      injection hdt0 with hd0 ht0x
      subst hd0
      subst ht0x
      have ht0 : 0 < tCountOf it0.2 key :=
        Nat.lt_of_le_of_lt (Nat.zero_le _) hq0
      simp only [closestLoop]
      split
      case isTrue hcond =>
        rw [Bool.and_eq_true] at hcond
        obtain ⟨h1, h2⟩ := hcond
        have hA : editLen (diffChars storedKey.data key.data) * tCountOf it0.2 key <
            dCountOf it0.2 key * (diffChars storedKey.data key.data).length :=
          (ratioLt_some_iff _ _ _ _).mp h2
        apply ih
        simp only [LoopInv]
        refine ⟨(file, storedKey), by simp, rfl, rfl, (ratioLtHalf_iff _ _).mp h1, ?_⟩
        intro it2 hit2 hq2
        rcases List.mem_append.mp hit2 with hseen | hnew
        · exact ratioTrans _ _ (dCountOf it0.2 key) (tCountOf it0.2 key) _ _ ht0 hA
            (hbound it2 hseen hq2)
        · have heq : it2 = (file, storedKey) := by simpa using hnew
          subst heq
          exact Nat.le_refl _
      case isFalse hcond =>
        simp only [Bool.and_eq_true, not_and] at hcond
        apply ih
        simp only [LoopInv]
        refine ⟨it0, List.mem_append_left _ hit0, hm0, rfl, hq0, ?_⟩
        intro it2 hit2 hq2
        rcases List.mem_append.mp hit2 with hseen | hnew
        · exact hbound it2 hseen hq2
        · have heq : it2 = (file, storedKey) := by simpa using hnew
          subst heq
          have h1 : ratioLtHalf (editLen (diffChars storedKey.data key.data))
              ((diffChars storedKey.data key.data).length) = true :=
            (ratioLtHalf_iff _ _).mpr hq2
          have h2 := hcond h1
          rw [ratioLt_some_iff] at h2
          exact Nat.le_of_not_lt (fun hlt => h2 hlt)

/-- C6: on a read-mode miss the closest-match finder considers exactly
the existing snapshot files whose basename starts with the missed
prefix and a dash; it returns no match iff no such candidate has
`diffRatio < 0.5` (in exact arithmetic `2 * d < t`, with
`d` = characters inserted plus removed and `t` = total characters
compared by the character diff); and any returned match is a qualifying
candidate achieving the minimum ratio among all qualifying candidates
(`d / t ≤ d2 / t2` stated cross-multiplied). -/
theorem c6ClosestMatchSelection (dir : String) (files : List FsEntry) (filePre key : String) :
    (findClosestSnapshotFile "read" (some dir) files filePre key = none ↔
      ∀ it ∈ candidateItems files filePre, ¬ qualifiesKey key it.2) ∧
    (∀ m, findClosestSnapshotFile "read" (some dir) files filePre key = some m →
      ∃ it ∈ candidateItems files filePre, m = mkMatchInfo key it ∧ qualifiesKey key it.2 ∧
        ∀ it2 ∈ candidateItems files filePre, qualifiesKey key it2.2 →
          dCountOf it.2 key * tCountOf it2.2 key ≤
            dCountOf it2.2 key * tCountOf it.2 key) := by
  have hguard : findClosestSnapshotFile "read" (some dir) files filePre key =
      (closestLoop key (candidateItems files filePre) (none, none)).1 := by
    simp [findClosestSnapshotFile]
  have hinv := closestLoop_inv key (candidateItems files filePre) [] (none, none)
    (by simp [LoopInv])
  rw [List.nil_append] at hinv
  rcases hres : closestLoop key (candidateItems files filePre) (none, none) with ⟨o1, o2⟩
  rw [hres] at hinv
  rcases o1 with _ | mbest <;> rcases o2 with _ | dt
  · simp only [LoopInv] at hinv
    constructor
    · rw [hguard, hres]
      exact ⟨fun _ => hinv, fun _ => rfl⟩
    · intro m hm
      rw [hguard, hres] at hm
      exact absurd hm (by simp)
  · exact absurd hinv (by simp [LoopInv])
  · exact absurd hinv (by simp [LoopInv])
  · simp only [LoopInv] at hinv
    obtain ⟨it0, hit0, hm0, hdt0, hq0, hbound⟩ := hinv
    constructor
    · rw [hguard, hres]
      constructor
      · intro hcontra
        exact absurd hcontra (by simp)
      · intro hall
        exact absurd hq0 (hall it0 hit0)
    · intro m hm
      rw [hguard, hres] at hm
      have hmb : mbest = m := by simpa using hm
      subst hmb
      exact ⟨it0, hit0, hm0, hq0, hbound⟩

/-! ## Claim C4: the write dedup cache -/

/-- Invariant tying the physical write log to the dedup cache: a path has
been physically written exactly once iff it has a dedup entry, and every
dedup entry is keyed by the absolute path recorded inside it. -/
def WInv (st : ProcState) : Prop :=
  (∀ q, st.writeLog.count q =
    (if (lookupAssoc st.alreadyWrittenFiles q).isSome then 1 else 0)) ∧
  (∀ q r, lookupAssoc st.alreadyWrittenFiles q = some r → r.absoluteFilePath = q)

theorem saveSnapshot_step (st : ProcState) (req : Request) (resp : ResponseIn)
    (fi : SnapshotFileInfo) (hInv : WInv st) :
    WInv (saveSnapshot st req resp fi).2 ∧
    (∀ q r0, lookupAssoc st.alreadyWrittenFiles q = some r0 →
      lookupAssoc (saveSnapshot st req resp fi).2.alreadyWrittenFiles q = some r0) ∧
    lookupAssoc (saveSnapshot st req resp fi).2.alreadyWrittenFiles fi.absoluteFilePath =
      some (saveSnapshot st req resp fi).1 ∧
    (saveSnapshot st req resp fi).1.absoluteFilePath = fi.absoluteFilePath := by
  obtain ⟨hcount, hkey⟩ := hInv
  unfold saveSnapshot
  rcases hl : lookupAssoc st.alreadyWrittenFiles fi.absoluteFilePath with _ | r
  · refine ⟨⟨?_, ?_⟩, ?_, ?_, rfl⟩
    · intro q
      by_cases hq : fi.absoluteFilePath = q
      · subst hq
        have h0 := hcount fi.absoluteFilePath
        rw [hl] at h0
        simp at h0
        simp [lookupAssoc, List.count_append, h0]
      · simp only [lookupAssoc, if_neg hq]
        rw [List.count_append]
        have hsingle : List.count q [fi.absoluteFilePath] = 0 := by
          refine List.count_eq_zero.mpr ?_
          simp only [List.mem_singleton]
          exact fun h => hq h.symm
        rw [hsingle]
        simpa using hcount q
    · intro q r0 h0
      by_cases hq : fi.absoluteFilePath = q
      · subst hq
        simp only [lookupAssoc, if_pos rfl] at h0
        cases h0
        rfl
      · simp only [lookupAssoc, if_neg hq] at h0
        exact hkey q r0 h0
    · intro q r0 h0
      by_cases hq : fi.absoluteFilePath = q
      · subst hq
        rw [hl] at h0
        exact absurd h0 (by simp)
      · simp only [lookupAssoc, if_neg hq]
        exact h0
    · simp [lookupAssoc]
  · simp only
    exact ⟨⟨hcount, hkey⟩, fun q r0 h0 => h0, hl, hkey _ _ hl⟩

theorem processSaves_spec (events : List SaveEvent) :
    ∀ st : ProcState, WInv st →
      WInv (processSaves st events).2 ∧
      (∀ q r0, lookupAssoc st.alreadyWrittenFiles q = some r0 →
        lookupAssoc (processSaves st events).2.alreadyWrittenFiles q = some r0) ∧
      (∀ r ∈ (processSaves st events).1,
        lookupAssoc (processSaves st events).2.alreadyWrittenFiles r.absoluteFilePath =
          some r) ∧
      (∀ p, (∃ e ∈ events, e.fileInfo.absoluteFilePath = p) →
        (lookupAssoc (processSaves st events).2.alreadyWrittenFiles p).isSome) := by
  induction events with
  | nil =>
    intro st hInv
    refine ⟨hInv, fun q r0 h0 => h0, ?_, ?_⟩
    · intro r hr
      exact absurd hr (by simp [processSaves])
    · intro p hp
      simp at hp
  | cons e rest ih =>
    intro st hInv
    obtain ⟨hInv2, hmono, hfound, hpath⟩ := saveSnapshot_step st e.request e.response e.fileInfo hInv
    obtain ⟨ihInv, ihmono, ihres, ihex⟩ := ih (saveSnapshot st e.request e.response e.fileInfo).2 hInv2
    have hstep : processSaves st (e :: rest) =
        ((saveSnapshot st e.request e.response e.fileInfo).1 ::
            (processSaves (saveSnapshot st e.request e.response e.fileInfo).2 rest).1,
          (processSaves (saveSnapshot st e.request e.response e.fileInfo).2 rest).2) := by
      simp [processSaves]
    rw [hstep]
    refine ⟨ihInv, ?_, ?_, ?_⟩
    · intro q r0 h0
      exact ihmono q r0 (hmono q r0 h0)
    · intro r hr
      rcases List.mem_cons.mp hr with hr1 | hr2
      · subst hr1
        rw [hpath]
        exact ihmono _ _ hfound
      · exact ihres r hr2
    · intro p hp
      obtain ⟨e2, he2, hpe2⟩ := hp
      rcases List.mem_cons.mp he2 with he | he
      · subst he
        rw [← hpe2]
        have hsome := ihmono _ _ hfound
        simp [hsome]
      · exact ihex p ⟨e2, he, hpe2⟩

/-- C4: over one process lifetime, for every absolute path, the save path
performs at most one physical file write to that path — exactly one when
at least one save event targets it — and every save call for that path
(later or interleaved with others on the single-threaded event loop)
returns the same recorded result value. -/
theorem c4WriteDedup (fs : List FsEntry) (events : List SaveEvent) (p : String) :
    ((processSaves (initialState fs) events).2.writeLog.count p ≤ 1) ∧
    ((∃ e ∈ events, e.fileInfo.absoluteFilePath = p) →
      (processSaves (initialState fs) events).2.writeLog.count p = 1) ∧
    (∀ r1 ∈ (processSaves (initialState fs) events).1,
      ∀ r2 ∈ (processSaves (initialState fs) events).1,
        r1.absoluteFilePath = p → r2.absoluteFilePath = p → r1 = r2) := by
  have hInv0 : WInv (initialState fs) := by
    constructor
    · intro q
      simp [initialState, lookupAssoc]
    · intro q r h
      simp [initialState, lookupAssoc] at h
  obtain ⟨⟨hcount, hkey⟩, hmono, hres, hex⟩ := processSaves_spec events (initialState fs) hInv0
  refine ⟨?_, ?_, ?_⟩
  · rw [hcount p]
    split <;> omega
  · intro hp
    rw [hcount p]
    have := hex p hp
    simp [this]
  · intro r1 h1 r2 h2 hp1 hp2
    have e1 := hres r1 h1
    have e2 := hres r2 h2
    rw [hp1] at e1
    rw [hp2] at e2
    rw [e1] at e2
    exact (Option.some.injEq _ _ ▸ e2 : r1 = r2)

/-! ## Claim C5: append-mode semantics -/

/-- C5: in `append` mode a missing snapshot file is not an error — the
request event completes with no injected response and an unchanged state
(the request passes through untouched) — and on the response event the
snapshot write path is invoked exactly when the request is not ignored
and that identity's file name was not successfully read during this
run. -/
theorem c5AppendMode (gen : Request → Except String Fingerprint) (fns : CompressFns)
    (cfg : SnapCfg) (st : ProcState) (req : Request) (fi : SnapshotFileInfo)
    (ig : Bool) (fi2 : SnapshotFileInfo) (st2 : ProcState) (req2 : Request)
    (resp2 : ResponseIn)
    (hfi : getSnapshotFileInfo gen cfg req = .ok fi)
    (hcache : lookupAssoc st.snapshotCache fi.absoluteFilePath = none)
    (hfs : lookupFs st.fsFiles fi.absoluteFilePath = none) :
    onRequest gen fns cfg "append" false st req = (.passThrough, st) ∧
    (savedFlag (onResponse gen cfg "append" ig (some fi2) st2 req2 resp2) = true ↔
      (ig = false ∧ fi2.fileName ∉ st2.readFiles)) := by
  constructor
  · unfold onRequest
    simp only [hfi]
    unfold readSnapshot
    rw [hcache, hfs]
    simp
  · unfold onResponse savedFlag
    by_cases hig : ig <;> by_cases hmem : fi2.fileName ∈ st2.readFiles <;>
      simp [hig, hmem]

/-- C5 witness: the theorem applied to the concrete xkcd request against
an empty snapshot directory and an empty process state. -/
theorem c5AppendModeWitness :
    onRequest defaultSnapshotFileNameGenerator idFns cfg0 "append" false st0 xkcdReq =
      (.passThrough, st0) ∧
    (savedFlag (onResponse defaultSnapshotFileNameGenerator cfg0 "append" false (some xkcdFi)
        st0 xkcdReq sampleResp) = true ↔
      (false = false ∧ xkcdFi.fileName ∉ st0.readFiles)) :=
  c5AppendMode defaultSnapshotFileNameGenerator idFns cfg0 st0 xkcdReq xkcdFi false xkcdFi
    st0 xkcdReq sampleResp (by decide) rfl rfl

end Snapshotter
